import Mathlib

/-!
Verification development for the pyspnego provider-selection engine
(`spnego/auth.py`).  The selection logic of `_new_context` is embedded
faithfully: protocol lowercasing, credential unification, the two
capability-filtering passes (delegation/kerberos-exclusivity on the GSSAPI
set, NTLM-hash stripping on both native sets) and the if/elif precedence
chain choosing one proxy class.  The live capability lists returned by
`SSPIProxy.available_protocols` / `GSSAPIProxy.available_protocols` are host
state and are taken as explicit inputs.
-/

namespace Spnego

/-- Modelled from the spec: the credential variants of `spnego._credential`
(data model accompanying `auth.py`; that module is not under `src/`).
`credentialCache` is the ambient-cache sentinel. -/
inductive Credential where
  | password (username : String) (pw : String)
  | kerberosCCache (principal : Option String) (ccache : String)
  | kerberosKeytab (principal : String) (keytab : String)
  | ntlmHash (username : String) (lmHash : Option String) (ntHash : String)
  | credentialCache (principal : Option String)
deriving DecidableEq, Repr

/-- Modelled from the spec: `supported_protocols` of each credential variant —
ambient cache and password support both mechanisms, ccache/keytab only
kerberos, an NT hash only ntlm. -/
def Credential.supported_protocols : Credential → List String
  | .password _ _ => ["kerberos", "ntlm"]
  | .kerberosCCache _ _ => ["kerberos"]
  | .kerberosKeytab _ _ => ["kerberos"]
  | .ntlmHash _ _ _ => ["ntlm"]
  | .credentialCache _ => ["kerberos", "ntlm"]

/-- The check `isinstance(cred, (Password, KerberosKeytab))` of `auth.py`. -/
def Credential.isPasswordOrKeytab : Credential → Bool
  | .password _ _ => true
  | .kerberosKeytab _ _ => true
  | _ => false

/-- The check `isinstance(cred, NTLMHash)` of `auth.py`. -/
def Credential.isNTLMHash : Credential → Bool
  | .ntlmHash _ _ _ => true
  | _ => false

/-- Modelled from the spec: the `ContextReq` requirement flags
(`spnego._context`, not under `src/`), a set of independent booleans. -/
structure ContextReq where
  delegate : Bool
  delegatePolicy : Bool
  mutualAuth : Bool
  replayDetect : Bool
  sequenceDetect : Bool
  confidentiality : Bool
  integrity : Bool
deriving DecidableEq, Repr

/-- Modelled from the spec: the four mutually-exclusive backend-override
hints of `NegotiateOptions` (`spnego.exceptions`, not under `src/`); the
remaining hints do not enter backend choice. -/
structure NegotiateOptions where
  use_sspi : Bool
  use_gssapi : Bool
  use_negotiate : Bool
  use_ntlm : Bool
deriving DecidableEq, Repr

/-- Modelled from the spec: opaque channel-binding data, forwarded unchanged
to the chosen backend. -/
structure GssChannelBindings where
  applicationData : List Nat
deriving DecidableEq, Repr

/-- Errors the selection path can raise: the `ValueError` for an unknown
protocol at the end of the chain, and the credential-unification failure. -/
inductive SpnegoError where
  | invalidProtocol (protocol : String)
  | invalidCredential (msg : String)
deriving DecidableEq, Repr

/-- The shapes the `username` argument of `client` may take. -/
inductive UserParam where
  | absent
  | name (username : String)
  | cred (c : Credential)
  | creds (cs : List Credential)
deriving DecidableEq, Repr

/-- Modelled from the spec: `unify_credentials` of `spnego._credential`
(not under `src/`), §4.1 — absent username gives the ambient-cache
sentinel, a plain string with a password gives a `Password`, credential
objects pass through unchanged, and a password next to a credential form is
rejected. -/
def unify_credentials : UserParam → Option String → Except SpnegoError (List Credential)
  | .absent, _ => .ok [.credentialCache none]
  | .name u, none => .ok [.credentialCache (some u)]
  | .name u, some pw => .ok [.password u pw]
  | .cred c, none => .ok [c]
  | .cred _, some _ => .error (.invalidCredential "password specified with a Credential")
  | .creds cs, none => .ok cs
  | .creds _, some _ => .error (.invalidCredential "password specified with a Credential list")

/-- Embedding of `protocol.lower()` from `auth.py` line 59: lowercase every
character (the protocol names involved are ASCII). -/
def lowerStr (s : String) : String := ⟨s.data.map Char.toLower⟩

/-- The closed set of proxy classes `_new_context` can pick. -/
inductive ProxyKind where
  | credsspProxy
  | sspiProxy
  | gssapiProxy
  | negotiateProxy
  | ntlmProxy
deriving DecidableEq, Repr

/-- The keyword arguments of the final `proxy(...)` construction in
`_new_context`, together with which proxy class receives them. -/
structure ContextArgs where
  proxy : ProxyKind
  username : List Credential
  hostname : String
  service : String
  channel_bindings : Option GssChannelBindings
  context_req : ContextReq
  usage : String
  protocol : String
  options : NegotiateOptions
deriving DecidableEq, Repr

/-- The `for cred in credentials` loop guarded by
`"negotiate" in gssapi_protocols` in `auth.py` lines 78-85: the first
credential that is kerberos-only, or that is a fresh secret while a
delegated context is requested, removes `"negotiate"` and breaks. -/
def removeNegotiateLoop (forwardable : Bool) (gssapi_protocols : List String) :
    List Credential → List String
  | [] => gssapi_protocols
  | c :: rest =>
    if c.supported_protocols = ["kerberos"] then gssapi_protocols.erase "negotiate"
    else if forwardable && c.isPasswordOrKeytab then gssapi_protocols.erase "negotiate"
    else removeNegotiateLoop forwardable gssapi_protocols rest

/-- Lines 75-85 of `auth.py`: the guard `"negotiate" in gssapi_protocols`,
the `forwardable` bit from the delegate flags, and the credential loop. -/
def gssapiStep1 (credentials : List Credential) (context_req : ContextReq)
    (gssapi_protocols : List String) : List String :=
  if "negotiate" ∈ gssapi_protocols then
    removeNegotiateLoop (context_req.delegate || context_req.delegatePolicy)
      gssapi_protocols credentials
  else gssapi_protocols

/-- One conditional removal of the NTLM-hash loop body:
`if x in protocol_list: protocol_list.remove(x)`. -/
def stripOne (x : String) (protocol_list : List String) : List String :=
  if x ∈ protocol_list then protocol_list.erase x else protocol_list

/-- The body of the NTLM-hash loop (lines 90-95): drop `"ntlm"` then
`"negotiate"` from one protocol list, each only when present. -/
def stripNtlmAndNegotiate (protocol_list : List String) : List String :=
  stripOne "negotiate" (stripOne "ntlm" protocol_list)

/-- Lines 88-97 of `auth.py` as seen by one of the two lists: the loop
breaks at the first `NTLMHash`, so the list is stripped exactly when some
credential is an `NTLMHash`. -/
def hashStep (credentials : List Credential) (protocol_list : List String) : List String :=
  if credentials.any Credential.isNTLMHash then stripNtlmAndNegotiate protocol_list
  else protocol_list

/-- The SSPI capability set after both pre-filtering passes (only the
NTLM-hash pass touches it). -/
def sspiFiltered (credentials : List Credential) (sspiAvailable : List String) : List String :=
  hashStep credentials sspiAvailable

/-- The GSSAPI capability set after both pre-filtering passes. -/
def gssapiFiltered (credentials : List Credential) (context_req : ContextReq)
    (gssapiAvailable : List String) : List String :=
  hashStep credentials (gssapiStep1 credentials context_req gssapiAvailable)

/-- The test `options & use_flags != 0` of `auth.py` lines 66-68. -/
def useSpecified (options : NegotiateOptions) : Bool :=
  options.use_sspi || options.use_gssapi || options.use_negotiate || options.use_ntlm

/-- The function `_new_context` of `auth.py`: lowercase the protocol, unify the
credentials, filter the two probed capability lists, then walk the
if/elif precedence chain; the chosen proxy receives the unified
credential list and the other arguments unchanged (the protocol as the
lowercased, possibly ntlm-downgraded name).  The two probed lists are
explicit inputs, as they are host state. -/
def _new_context (username : UserParam) (password : Option String)
    (hostname : String) (service : String)
    (channel_bindings : Option GssChannelBindings) (context_req : ContextReq)
    (protocol : String) (options : NegotiateOptions) (usage : String)
    (sspiAvailable gssapiAvailable : List String) :
    Except SpnegoError ContextArgs :=
  let proto := lowerStr protocol
  match unify_credentials username password with
  | .error e => .error e
  | .ok credentials =>
    let sspi_protocols := sspiFiltered credentials sspiAvailable
    let gssapi_protocols := gssapiFiltered credentials context_req gssapiAvailable
    if proto = "credssp" then
      .ok ⟨.credsspProxy, credentials, hostname, service, channel_bindings,
           context_req, usage, proto, options⟩
    else if options.use_sspi = true ∨
        (useSpecified options = false ∧ proto ∈ sspi_protocols) then
      .ok ⟨.sspiProxy, credentials, hostname, service, channel_bindings,
           context_req, usage, proto, options⟩
    else if options.use_gssapi = true ∨
        (useSpecified options = false ∧
          (proto = "kerberos" ∨ proto ∈ gssapi_protocols)) then
      .ok ⟨.gssapiProxy, credentials, hostname, service, channel_bindings,
           context_req, usage, proto, options⟩
    else if options.use_negotiate = true ∨
        (useSpecified options = false ∧ proto = "negotiate") then
      .ok ⟨.negotiateProxy, credentials, hostname, service, channel_bindings,
           context_req, usage, proto, options⟩
    else if options.use_ntlm = true ∨
        (useSpecified options = false ∧ proto = "ntlm") then
      .ok ⟨.ntlmProxy, credentials, hostname, service, channel_bindings,
           context_req, usage, if proto = "negotiate" then "ntlm" else proto, options⟩
    else
      .error (.invalidProtocol protocol)

/-- Entry point `client` of `auth.py`: `_new_context` with usage `initiate`. -/
def client (username : UserParam) (password : Option String)
    (hostname : String) (service : String)
    (channel_bindings : Option GssChannelBindings) (context_req : ContextReq)
    (protocol : String) (options : NegotiateOptions)
    (sspiAvailable gssapiAvailable : List String) :
    Except SpnegoError ContextArgs :=
  _new_context username password hostname service channel_bindings context_req
    protocol options "initiate" sspiAvailable gssapiAvailable

/-- Entry point `server` of `auth.py`: `_new_context` with no credential
input and usage `accept`. -/
def server (hostname : String) (service : String)
    (channel_bindings : Option GssChannelBindings) (context_req : ContextReq)
    (protocol : String) (options : NegotiateOptions)
    (sspiAvailable gssapiAvailable : List String) :
    Except SpnegoError ContextArgs :=
  _new_context .absent none hostname service channel_bindings context_req
    protocol options "accept" sspiAvailable gssapiAvailable

/-- A `ContextReq` with every flag clear. -/
def ContextReq.noneReq : ContextReq := ⟨false, false, false, false, false, false, false⟩

/-- A `ContextReq` requesting only `delegate`. -/
def ContextReq.delegateReq : ContextReq := ⟨true, false, false, false, false, false, false⟩

/-- No backend-override hint set (the `NegotiateOptions.none` value). -/
def NegotiateOptions.noneOpt : NegotiateOptions := ⟨false, false, false, false⟩

/-- Only the `use_sspi` override hint. -/
def NegotiateOptions.sspiOpt : NegotiateOptions := ⟨true, false, false, false⟩

/-- Only the `use_gssapi` override hint. -/
def NegotiateOptions.gssapiOpt : NegotiateOptions := ⟨false, true, false, false⟩

/-- Only the `use_ntlm` override hint. -/
def NegotiateOptions.ntlmOpt : NegotiateOptions := ⟨false, false, false, true⟩

instance {ε α : Type} [DecidableEq ε] [DecidableEq α] : DecidableEq (Except ε α) := fun a b =>
  match a, b with
  | .ok x, .ok y => decidable_of_iff (x = y) (by simp)
  | .error e, .error f => decidable_of_iff (e = f) (by simp)
  | .ok _, .error _ => .isFalse (by simp)
  | .error _, .ok _ => .isFalse (by simp)

/-! Helper lemmas about the two pre-filtering passes. -/

theorem removeNegotiateLoop_eq_or (fw : Bool) (g : List String) (creds : List Credential) :
    removeNegotiateLoop fw g creds = g ∨
    removeNegotiateLoop fw g creds = g.erase "negotiate" := by
  induction creds with
  | nil => exact .inl rfl
  | cons c rest ih =>
    rw [removeNegotiateLoop]
    split
    · exact .inr rfl
    · split
      · exact .inr rfl
      · exact ih

theorem removeNegotiateLoop_eq_erase (fw : Bool) (g : List String)
    (creds : List Credential)
    (h : ∃ c ∈ creds, c.supported_protocols = ["kerberos"] ∨
      (fw = true ∧ c.isPasswordOrKeytab = true)) :
    removeNegotiateLoop fw g creds = g.erase "negotiate" := by
  induction creds with
  | nil => simp at h
  | cons c rest ih =>
    rw [removeNegotiateLoop]
    split
    · rfl
    · next hk =>
      split
      · rfl
      · next hfw =>
        rcases h with ⟨d, hd, hcond⟩
        rcases List.mem_cons.mp hd with rfl | hmem
        · rcases hcond with h1 | ⟨h2, h3⟩
          · exact absurd h1 hk
          · exact absurd (by rw [h2, h3]; rfl) hfw
        · exact ih ⟨d, hmem, hcond⟩

theorem gssapiStep1_eq_or (creds : List Credential) (cr : ContextReq) (g : List String) :
    gssapiStep1 creds cr g = g ∨ gssapiStep1 creds cr g = g.erase "negotiate" := by
  unfold gssapiStep1
  split
  · exact removeNegotiateLoop_eq_or _ _ _
  · exact .inl rfl

theorem gssapiStep1_subset {x : String} {creds : List Credential} {cr : ContextReq}
    {g : List String} (h : x ∈ gssapiStep1 creds cr g) : x ∈ g := by
  rcases gssapiStep1_eq_or creds cr g with he | he <;> rw [he] at h
  · exact h
  · exact List.mem_of_mem_erase h

theorem gssapiStep1_nodup {creds : List Credential} {cr : ContextReq}
    {g : List String} (h : g.Nodup) : (gssapiStep1 creds cr g).Nodup := by
  rcases gssapiStep1_eq_or creds cr g with he | he <;> rw [he]
  · exact h
  · exact h.erase _

theorem gssapiStep1_not_mem_negotiate {creds : List Credential} {cr : ContextReq}
    {g : List String} (hnd : g.Nodup)
    (h : ∃ c ∈ creds, c.supported_protocols = ["kerberos"] ∨
      ((cr.delegate || cr.delegatePolicy) = true ∧ c.isPasswordOrKeytab = true)) :
    "negotiate" ∉ gssapiStep1 creds cr g := by
  unfold gssapiStep1
  split
  · rw [removeNegotiateLoop_eq_erase _ _ _ h]
    exact hnd.not_mem_erase
  · assumption

theorem stripOne_subset (x : String) (l : List String) : stripOne x l ⊆ l := by
  unfold stripOne
  split
  · exact List.erase_subset _ _
  · exact fun y hy => hy

theorem stripOne_nodup {x : String} {l : List String} (h : l.Nodup) :
    (stripOne x l).Nodup := by
  unfold stripOne
  split
  · exact h.erase _
  · exact h

theorem stripOne_not_mem {x : String} {l : List String} (h : l.Nodup) :
    x ∉ stripOne x l := by
  unfold stripOne
  split
  · exact h.not_mem_erase
  · assumption

theorem stripOne_not_mem_of_not_mem {x y : String} {l : List String} (h : y ∉ l) :
    y ∉ stripOne x l :=
  fun hy => h (stripOne_subset x l hy)

theorem stripNtlmAndNegotiate_subset (l : List String) :
    stripNtlmAndNegotiate l ⊆ l :=
  fun _ hx => stripOne_subset _ _ (stripOne_subset _ _ hx)

theorem stripNtlmAndNegotiate_not_mem {l : List String} (hnd : l.Nodup) :
    "ntlm" ∉ stripNtlmAndNegotiate l ∧ "negotiate" ∉ stripNtlmAndNegotiate l := by
  constructor
  · exact stripOne_not_mem_of_not_mem (stripOne_not_mem hnd)
  · exact stripOne_not_mem (stripOne_nodup hnd)

theorem hashStep_subset (creds : List Credential) (l : List String) :
    hashStep creds l ⊆ l := by
  unfold hashStep
  split
  · exact stripNtlmAndNegotiate_subset l
  · exact fun x hx => hx

theorem hashStep_not_mem_of_not_mem {x : String} {creds : List Credential}
    {l : List String} (h : x ∉ l) : x ∉ hashStep creds l :=
  fun hx => h (hashStep_subset creds l hx)

theorem hashStep_of_hash {creds : List Credential} {l : List String}
    (h : creds.any Credential.isNTLMHash = true) :
    hashStep creds l = stripNtlmAndNegotiate l := by
  unfold hashStep
  rw [if_pos h]

theorem gssapiFiltered_not_mem_negotiate {creds : List Credential} {cr : ContextReq}
    {g : List String} (hnd : g.Nodup)
    (h : ∃ c ∈ creds, c.supported_protocols = ["kerberos"] ∨
      ((cr.delegate || cr.delegatePolicy) = true ∧ c.isPasswordOrKeytab = true)) :
    "negotiate" ∉ gssapiFiltered creds cr g :=
  hashStep_not_mem_of_not_mem (gssapiStep1_not_mem_negotiate hnd h)

theorem sspiFiltered_subset (creds : List Credential) (l : List String) :
    sspiFiltered creds l ⊆ l :=
  hashStep_subset creds l

theorem gssapiFiltered_subset (creds : List Credential) (cr : ContextReq)
    (g : List String) : gssapiFiltered creds cr g ⊆ g :=
  fun _ hx => gssapiStep1_subset (hashStep_subset _ _ hx)

theorem useSpecified_false {o : NegotiateOptions} (h : useSpecified o = false) :
    o.use_sspi = false ∧ o.use_gssapi = false ∧ o.use_negotiate = false ∧
    o.use_ntlm = false := by
  unfold useSpecified at h
  simpa [and_assoc] using h

/-- Inversion of the precedence chain: a successfully constructed context
carries the unified credential list and the other call arguments verbatim,
and its proxy class is accounted for by exactly the branch condition that
selected it. -/
theorem new_context_inv
    (username : UserParam) (password : Option String) (hostname service : String)
    (cb : Option GssChannelBindings) (cr : ContextReq) (protocol : String)
    (options : NegotiateOptions) (usage : String) (sA gA : List String)
    (creds : List Credential) (c : ContextArgs)
    (hu : unify_credentials username password = .ok creds)
    (h : _new_context username password hostname service cb cr protocol options
      usage sA gA = .ok c) :
    c.username = creds ∧ c.hostname = hostname ∧ c.service = service ∧
    c.channel_bindings = cb ∧ c.context_req = cr ∧ c.usage = usage ∧
    c.options = options ∧
    ((c.proxy = .credsspProxy ∧ lowerStr protocol = "credssp" ∧
        c.protocol = lowerStr protocol) ∨
     (c.proxy = .sspiProxy ∧ c.protocol = lowerStr protocol ∧
        (options.use_sspi = true ∨ (useSpecified options = false ∧
          lowerStr protocol ∈ sspiFiltered creds sA))) ∨
     (c.proxy = .gssapiProxy ∧ c.protocol = lowerStr protocol ∧
        (options.use_gssapi = true ∨ (useSpecified options = false ∧
          (lowerStr protocol = "kerberos" ∨
            lowerStr protocol ∈ gssapiFiltered creds cr gA)))) ∨
     (c.proxy = .negotiateProxy ∧ c.protocol = lowerStr protocol ∧
        (options.use_negotiate = true ∨ (useSpecified options = false ∧
          lowerStr protocol = "negotiate"))) ∨
     (c.proxy = .ntlmProxy ∧
        c.protocol = (if lowerStr protocol = "negotiate" then "ntlm"
          else lowerStr protocol) ∧
        (options.use_ntlm = true ∨ (useSpecified options = false ∧
          lowerStr protocol = "ntlm")))) := by
  simp only [_new_context, hu] at h
  split at h
  · next hc =>
    rw [Except.ok.injEq] at h
    subst h
    exact ⟨rfl, rfl, rfl, rfl, rfl, rfl, rfl, .inl ⟨rfl, hc, rfl⟩⟩
  · next hc =>
    split at h
    · next hc2 =>
      rw [Except.ok.injEq] at h
      subst h
      exact ⟨rfl, rfl, rfl, rfl, rfl, rfl, rfl, .inr (.inl ⟨rfl, rfl, hc2⟩)⟩
    · next hc2 =>
      split at h
      · next hc3 =>
        rw [Except.ok.injEq] at h
        subst h
        exact ⟨rfl, rfl, rfl, rfl, rfl, rfl, rfl, .inr (.inr (.inl ⟨rfl, rfl, hc3⟩))⟩
      · next hc3 =>
        split at h
        · next hc4 =>
          rw [Except.ok.injEq] at h
          subst h
          exact ⟨rfl, rfl, rfl, rfl, rfl, rfl, rfl,
            .inr (.inr (.inr (.inl ⟨rfl, rfl, hc4⟩)))⟩
        · next hc4 =>
          split at h
          · next hc5 =>
            rw [Except.ok.injEq] at h
            subst h
            exact ⟨rfl, rfl, rfl, rfl, rfl, rfl, rfl,
              .inr (.inr (.inr (.inr ⟨rfl, rfl, hc5⟩)))⟩
          · next hc5 =>
            exact absurd h (by simp)

/-- C4: a credential whose `supported_protocols` is exactly `["kerberos"]`
(ccache or keytab) removes `negotiate` from the GSSAPI capability set handed
to the precedence chain, the raw probed set being duplicate-free. -/
theorem kerberos_exclusivity_rule (creds : List Credential) (cr : ContextReq)
    (gA : List String) (hnd : gA.Nodup)
    (h : ∃ c ∈ creds, c.supported_protocols = ["kerberos"]) :
    "negotiate" ∉ gssapiFiltered creds cr gA := by
  rcases h with ⟨c, hc, hk⟩
  exact gssapiFiltered_not_mem_negotiate hnd ⟨c, hc, .inl hk⟩

/-- Witness for C4: a ccache credential strips `negotiate` from the probed
GSSAPI set `[ntlm, kerberos, negotiate, credssp]`. -/
theorem kerberos_exclusivity_rule_witness :
    (["ntlm", "kerberos", "negotiate", "credssp"] : List String).Nodup ∧
    (∃ c ∈ [Credential.kerberosCCache none "cc"],
      c.supported_protocols = ["kerberos"]) ∧
    "negotiate" ∉ gssapiFiltered [Credential.kerberosCCache none "cc"]
      ContextReq.noneReq ["ntlm", "kerberos", "negotiate", "credssp"] :=
  ⟨by decide, by decide,
    kerberos_exclusivity_rule [Credential.kerberosCCache none "cc"]
      ContextReq.noneReq ["ntlm", "kerberos", "negotiate", "credssp"]
      (by decide) (by decide)⟩

/-- C6: a request for `credssp` (case-insensitively) always constructs the
CredSSP proxy, whatever the override hints, credentials and capability
sets. -/
theorem credssp_unconditional
    (username : UserParam) (password : Option String) (hostname service : String)
    (cb : Option GssChannelBindings) (cr : ContextReq) (protocol : String)
    (options : NegotiateOptions) (usage : String) (sA gA : List String)
    (creds : List Credential)
    (hu : unify_credentials username password = .ok creds)
    (hp : lowerStr protocol = "credssp") :
    _new_context username password hostname service cb cr protocol options
      usage sA gA
    = .ok ⟨.credsspProxy, creds, hostname, service, cb, cr, usage,
        "credssp", options⟩ := by
  simp only [_new_context, hu, hp]
  rw [if_pos trivial]

/-- Witness for C6: protocol `CredSSP` with the `use_gssapi` hint still
resolves to the CredSSP proxy. -/
theorem credssp_unconditional_witness :
    unify_credentials .absent none = .ok [.credentialCache none] ∧
    lowerStr "CredSSP" = "credssp" ∧
    _new_context .absent none "host" "http" none ContextReq.noneReq "CredSSP"
      NegotiateOptions.gssapiOpt "initiate" [] ["negotiate"]
    = .ok ⟨.credsspProxy, [.credentialCache none], "host", "http", none,
        ContextReq.noneReq, "initiate", "credssp", NegotiateOptions.gssapiOpt⟩ :=
  ⟨by decide, by decide,
    credssp_unconditional .absent none "host" "http" none ContextReq.noneReq
      "CredSSP" NegotiateOptions.gssapiOpt "initiate" [] ["negotiate"]
      [.credentialCache none] (by decide) (by decide)⟩

/-- C7: when the chain resolves a request that entered as `negotiate` to the
internal NTLM engine, the protocol handed to the constructor is `ntlm`,
never `kerberos`. -/
theorem negotiate_downgrade
    (username : UserParam) (password : Option String) (hostname service : String)
    (cb : Option GssChannelBindings) (cr : ContextReq) (protocol : String)
    (options : NegotiateOptions) (usage : String) (sA gA : List String)
    (creds : List Credential) (c : ContextArgs)
    (hu : unify_credentials username password = .ok creds)
    (hp : lowerStr protocol = "negotiate")
    (h : _new_context username password hostname service cb cr protocol options
      usage sA gA = .ok c)
    (hpx : c.proxy = .ntlmProxy) :
    c.protocol = "ntlm" ∧ c.protocol ≠ "kerberos" := by
  have hi := new_context_inv _ _ _ _ _ _ _ _ _ _ _ _ _ hu h
  rcases hi.2.2.2.2.2.2.2 with h1 | h2 | h3 | h4 | h5
  · rcases h1 with ⟨hq, -, -⟩; rw [hpx] at hq; exact absurd hq (by decide)
  · rcases h2 with ⟨hq, -, -⟩; rw [hpx] at hq; exact absurd hq (by decide)
  · rcases h3 with ⟨hq, -, -⟩; rw [hpx] at hq; exact absurd hq (by decide)
  · rcases h4 with ⟨hq, -, -⟩; rw [hpx] at hq; exact absurd hq (by decide)
  · rcases h5 with ⟨-, hprot, -⟩
    rw [hp, if_pos rfl] at hprot
    exact ⟨hprot, by rw [hprot]; decide⟩

/-- Witness for C7: `negotiate` with the `use_ntlm` hint reaches the
internal NTLM engine and is constructed with protocol `ntlm`. -/
theorem negotiate_downgrade_witness :
    _new_context .absent none "host" "http" none ContextReq.noneReq
      "negotiate" NegotiateOptions.ntlmOpt "initiate" [] []
    = .ok ⟨.ntlmProxy, [.credentialCache none], "host", "http", none,
        ContextReq.noneReq, "initiate", "ntlm", NegotiateOptions.ntlmOpt⟩ ∧
    (ContextArgs.mk .ntlmProxy [.credentialCache none] "host" "http" none
        ContextReq.noneReq "initiate" "ntlm" NegotiateOptions.ntlmOpt).protocol
      = "ntlm" ∧
    (ContextArgs.mk .ntlmProxy [.credentialCache none] "host" "http" none
        ContextReq.noneReq "initiate" "ntlm" NegotiateOptions.ntlmOpt).protocol
      ≠ "kerberos" :=
  ⟨by decide,
    negotiate_downgrade .absent none "host" "http" none ContextReq.noneReq
      "negotiate" NegotiateOptions.ntlmOpt "initiate" [] []
      [.credentialCache none]
      (ContextArgs.mk .ntlmProxy [.credentialCache none] "host" "http" none
        ContextReq.noneReq "initiate" "ntlm" NegotiateOptions.ntlmOpt)
      (by decide) (by decide) (by decide) (by decide)⟩

/-- C8: selection is a pure function of its inputs (credential argument,
protocol, options, requirement flags, probed capability) — componentwise
equal inputs give equal results, and one call determines exactly one set of
constructor arguments. -/
theorem selection_pure
    (u1 u2 : UserParam) (p1 p2 : Option String) (h1 h2 s1 s2 : String)
    (cb1 cb2 : Option GssChannelBindings) (cr1 cr2 : ContextReq)
    (pr1 pr2 : String) (o1 o2 : NegotiateOptions) (us1 us2 : String)
    (sA1 sA2 gA1 gA2 : List String)
    (hu : u1 = u2) (hp : p1 = p2) (hh : h1 = h2) (hs : s1 = s2)
    (hcb : cb1 = cb2) (hcr : cr1 = cr2) (hpr : pr1 = pr2) (ho : o1 = o2)
    (hus : us1 = us2) (hsA : sA1 = sA2) (hgA : gA1 = gA2) :
    _new_context u1 p1 h1 s1 cb1 cr1 pr1 o1 us1 sA1 gA1 =
      _new_context u2 p2 h2 s2 cb2 cr2 pr2 o2 us2 sA2 gA2 ∧
    ∀ c c' : ContextArgs,
      _new_context u1 p1 h1 s1 cb1 cr1 pr1 o1 us1 sA1 gA1 = .ok c →
      _new_context u1 p1 h1 s1 cb1 cr1 pr1 o1 us1 sA1 gA1 = .ok c' →
      c = c' := by
  subst hu hp hh hs hcb hcr hpr ho hus hsA hgA
  refine ⟨rfl, fun c c' hc hc' => ?_⟩
  rw [hc] at hc'
  exact Except.ok.inj hc'

/-- Witness for C8 at one concrete repeated call. -/
theorem selection_pure_witness :
    _new_context .absent none "host" "http" none ContextReq.noneReq
      "negotiate" NegotiateOptions.noneOpt "initiate" ["negotiate"] [] =
    _new_context .absent none "host" "http" none ContextReq.noneReq
      "negotiate" NegotiateOptions.noneOpt "initiate" ["negotiate"] [] ∧
    ∀ c c' : ContextArgs,
      _new_context .absent none "host" "http" none ContextReq.noneReq
        "negotiate" NegotiateOptions.noneOpt "initiate" ["negotiate"] [] = .ok c →
      _new_context .absent none "host" "http" none ContextReq.noneReq
        "negotiate" NegotiateOptions.noneOpt "initiate" ["negotiate"] [] = .ok c' →
      c = c' :=
  selection_pure _ _ _ _ _ _ _ _ _ _ _ _ _ _ _ _ _ _ _ _ _ _
    rfl rfl rfl rfl rfl rfl rfl rfl rfl rfl rfl

/-- C9: the chosen backend is constructed with the unified credential list
unchanged — in full and in order — together with the hostname, service,
channel bindings, requirement flags, role and original options; the
pre-filtering passes only derive capability sets and never touch a
credential. -/
theorem constructor_args_frame
    (username : UserParam) (password : Option String) (hostname service : String)
    (cb : Option GssChannelBindings) (cr : ContextReq) (protocol : String)
    (options : NegotiateOptions) (usage : String) (sA gA : List String)
    (creds : List Credential) (c : ContextArgs)
    (hu : unify_credentials username password = .ok creds)
    (h : _new_context username password hostname service cb cr protocol options
      usage sA gA = .ok c) :
    c.username = creds ∧ c.hostname = hostname ∧ c.service = service ∧
    c.channel_bindings = cb ∧ c.context_req = cr ∧ c.usage = usage ∧
    c.options = options := by
  have hi := new_context_inv _ _ _ _ _ _ _ _ _ _ _ _ _ hu h
  exact ⟨hi.1, hi.2.1, hi.2.2.1, hi.2.2.2.1, hi.2.2.2.2.1, hi.2.2.2.2.2.1,
    hi.2.2.2.2.2.2.1⟩

/-- Witness for C9: a two-credential list reaches the chosen backend
unchanged and in order. -/
theorem constructor_args_frame_witness :
    unify_credentials
      (.creds [.kerberosCCache none "cc", .ntlmHash "u" none "h"]) none
    = .ok [.kerberosCCache none "cc", .ntlmHash "u" none "h"] ∧
    (ContextArgs.mk .negotiateProxy
        [.kerberosCCache none "cc", .ntlmHash "u" none "h"] "host" "http" none
        ContextReq.noneReq "initiate" "negotiate"
        NegotiateOptions.noneOpt).username
      = [.kerberosCCache none "cc", .ntlmHash "u" none "h"] :=
  ⟨by decide,
    (constructor_args_frame
      (.creds [.kerberosCCache none "cc", .ntlmHash "u" none "h"]) none
      "host" "http" none ContextReq.noneReq "negotiate"
      NegotiateOptions.noneOpt "initiate" [] []
      [.kerberosCCache none "cc", .ntlmHash "u" none "h"]
      (ContextArgs.mk .negotiateProxy
        [.kerberosCCache none "cc", .ntlmHash "u" none "h"] "host" "http" none
        ContextReq.noneReq "initiate" "negotiate" NegotiateOptions.noneOpt)
      (by decide) (by decide)).1⟩

/-- C1 counterexample: with the `use_gssapi` override hint set, a delegated
keytab credential requesting `negotiate` is still routed to the GSSAPI
proxy with protocol `negotiate` — backend B's negotiate path — even though
backend B advertises `negotiate` and the delegation-forcing rule fired. -/
theorem delegation_forcing_override_counterexample :
    _new_context (.creds [.kerberosKeytab "u" "kt"]) none "host" "http" none
      ContextReq.delegateReq "negotiate" NegotiateOptions.gssapiOpt "initiate"
      [] ["ntlm", "kerberos", "negotiate", "credssp"]
    = .ok ⟨.gssapiProxy, [.kerberosKeytab "u" "kt"], "host", "http", none,
        ContextReq.delegateReq, "initiate", "negotiate",
        NegotiateOptions.gssapiOpt⟩ := by
  decide

/-- C1 (amended): when `delegate` or `delegate_policy` is requested and some
unified credential is a `Password` or `KerberosKeytab`, `negotiate` is
removed from the GSSAPI capability set before the precedence chain runs
(the probed set being duplicate-free); and — provided no backend-override
hint is set — the chosen backend is never the GSSAPI proxy carrying
protocol `negotiate`. -/
theorem delegation_forcing_rule
    (username : UserParam) (password : Option String) (hostname service : String)
    (cb : Option GssChannelBindings) (cr : ContextReq) (protocol : String)
    (options : NegotiateOptions) (usage : String) (sA gA : List String)
    (creds : List Credential)
    (hu : unify_credentials username password = .ok creds)
    (hfw : cr.delegate = true ∨ cr.delegatePolicy = true)
    (hcred : ∃ d ∈ creds, d.isPasswordOrKeytab = true)
    (hnd : gA.Nodup) :
    "negotiate" ∉ gssapiFiltered creds cr gA ∧
    (useSpecified options = false → ∀ c : ContextArgs,
      _new_context username password hostname service cb cr protocol options
        usage sA gA = .ok c →
      ¬(c.proxy = .gssapiProxy ∧ c.protocol = "negotiate")) := by
  have hfw2 : (cr.delegate || cr.delegatePolicy) = true := by
    rcases hfw with h | h <;> simp [h]
  have hrem : "negotiate" ∉ gssapiFiltered creds cr gA := by
    rcases hcred with ⟨d, hd, hpk⟩
    exact gssapiFiltered_not_mem_negotiate hnd ⟨d, hd, .inr ⟨hfw2, hpk⟩⟩
  refine ⟨hrem, fun hns c h hand => ?_⟩
  obtain ⟨hpx, hprot⟩ := hand
  have hi := new_context_inv _ _ _ _ _ _ _ _ _ _ _ _ _ hu h
  rcases hi.2.2.2.2.2.2.2 with h1 | h2 | h3 | h4 | h5
  · rcases h1 with ⟨hq, -, -⟩; rw [hpx] at hq; exact absurd hq (by decide)
  · rcases h2 with ⟨hq, -, -⟩; rw [hpx] at hq; exact absurd hq (by decide)
  · rcases h3 with ⟨-, hq, hcond⟩
    have hlp : lowerStr protocol = "negotiate" := by rw [← hq]; exact hprot
    rcases hcond with hg | ⟨-, hk | hmem⟩
    · rw [(useSpecified_false hns).2.1] at hg; exact absurd hg (by decide)
    · rw [hlp] at hk; exact absurd hk (by decide)
    · rw [hlp] at hmem; exact hrem hmem
  · rcases h4 with ⟨hq, -, -⟩; rw [hpx] at hq; exact absurd hq (by decide)
  · rcases h5 with ⟨hq, -, -⟩; rw [hpx] at hq; exact absurd hq (by decide)

/-- Witness for the amended C1: a delegated keytab credential on a host
whose GSSAPI set is `[ntlm, kerberos, negotiate, credssp]`, with no
override hint. -/
theorem delegation_forcing_rule_witness :
    unify_credentials (.creds [.kerberosKeytab "u" "kt"]) none
      = .ok [.kerberosKeytab "u" "kt"] ∧
    ("negotiate" ∉ gssapiFiltered [.kerberosKeytab "u" "kt"]
        ContextReq.delegateReq ["ntlm", "kerberos", "negotiate", "credssp"] ∧
      (useSpecified NegotiateOptions.noneOpt = false → ∀ c : ContextArgs,
        _new_context (.creds [.kerberosKeytab "u" "kt"]) none "host" "http"
          none ContextReq.delegateReq "negotiate" NegotiateOptions.noneOpt
          "initiate" [] ["ntlm", "kerberos", "negotiate", "credssp"] = .ok c →
        ¬(c.proxy = .gssapiProxy ∧ c.protocol = "negotiate"))) :=
  ⟨by decide,
    delegation_forcing_rule (.creds [.kerberosKeytab "u" "kt"]) none "host"
      "http" none ContextReq.delegateReq "negotiate" NegotiateOptions.noneOpt
      "initiate" [] ["ntlm", "kerberos", "negotiate", "credssp"]
      [.kerberosKeytab "u" "kt"]
      (by decide) (by decide) (by decide) (by decide)⟩

/-- C2 counterexample: protocol `bogus` with the `use_sspi` override hint
does not fail at all — the SSPI proxy is constructed and handed the
unrecognized protocol name — so an unrecognized protocol is not rejected
before credential unification or capability inspection. -/
theorem invalid_protocol_counterexample :
    _new_context .absent none "host" "http" none ContextReq.noneReq "bogus"
      NegotiateOptions.sspiOpt "initiate" [] []
    = .ok ⟨.sspiProxy, [.credentialCache none], "host", "http", none,
        ContextReq.noneReq, "initiate", "bogus", NegotiateOptions.sspiOpt⟩ := by
  decide

/-- C2 (amended): an unrecognized protocol is rejected with the
invalid-protocol error only as the final fallback of the precedence chain —
credential unification runs first (its error takes precedence) and the
capability sets are probed and filtered — and only when no backend-override
hint is set; the probed capability lists hold recognized protocol names
only. -/
theorem invalid_protocol_last_resort
    (username : UserParam) (password : Option String) (hostname service : String)
    (cb : Option GssChannelBindings) (cr : ContextReq) (protocol : String)
    (options : NegotiateOptions) (usage : String) (sA gA : List String)
    (hvs : ∀ p ∈ sA, p ∈ ["ntlm", "kerberos", "negotiate", "credssp"])
    (hvg : ∀ p ∈ gA, p ∈ ["ntlm", "kerberos", "negotiate", "credssp"])
    (hns : useSpecified options = false)
    (hp : lowerStr protocol ∉ ["ntlm", "kerberos", "negotiate", "credssp"]) :
    (∀ e, unify_credentials username password = .error e →
      _new_context username password hostname service cb cr protocol options
        usage sA gA = .error e) ∧
    (∀ creds, unify_credentials username password = .ok creds →
      _new_context username password hostname service cb cr protocol options
        usage sA gA = .error (.invalidProtocol protocol)) := by
  have hflags := useSpecified_false hns
  constructor
  · intro e he
    simp only [_new_context, he]
  · intro creds hu
    have hpc : ¬(lowerStr protocol = "credssp") := fun h =>
      hp (by rw [h]; decide)
    have hpk : ¬(lowerStr protocol = "kerberos") := fun h =>
      hp (by rw [h]; decide)
    have hpn : ¬(lowerStr protocol = "negotiate") := fun h =>
      hp (by rw [h]; decide)
    have hpt : ¬(lowerStr protocol = "ntlm") := fun h =>
      hp (by rw [h]; decide)
    have hsm : lowerStr protocol ∉ sspiFiltered creds sA := fun hm =>
      hp (hvs _ (sspiFiltered_subset creds sA hm))
    have hgm : lowerStr protocol ∉ gssapiFiltered creds cr gA := fun hm =>
      hp (hvg _ (gssapiFiltered_subset creds cr gA hm))
    simp only [_new_context, hu]
    rw [if_neg hpc]
    rw [if_neg (by rintro (hc | ⟨-, hc⟩)
                   · rw [hflags.1] at hc; exact absurd hc (by decide)
                   · exact hsm hc)]
    rw [if_neg (by rintro (hc | ⟨-, hk | hc⟩)
                   · rw [hflags.2.1] at hc; exact absurd hc (by decide)
                   · exact hpk hk
                   · exact hgm hc)]
    rw [if_neg (by rintro (hc | ⟨-, hc⟩)
                   · rw [hflags.2.2.1] at hc; exact absurd hc (by decide)
                   · exact hpn hc)]
    rw [if_neg (by rintro (hc | ⟨-, hc⟩)
                   · rw [hflags.2.2.2] at hc; exact absurd hc (by decide)
                   · exact hpt hc)]

/-- Witness for the amended C2: protocol `bogus`, no override hint — the
call ends in the invalid-protocol error after unification succeeded. -/
theorem invalid_protocol_last_resort_witness :
    useSpecified NegotiateOptions.noneOpt = false ∧
    lowerStr "bogus" ∉ ["ntlm", "kerberos", "negotiate", "credssp"] ∧
    (∀ creds, unify_credentials .absent none = .ok creds →
      _new_context .absent none "host" "http" none ContextReq.noneReq "bogus"
        NegotiateOptions.noneOpt "initiate" ["ntlm"] ["kerberos"]
        = .error (.invalidProtocol "bogus")) :=
  ⟨by decide, by decide,
    (invalid_protocol_last_resort .absent none "host" "http" none
      ContextReq.noneReq "bogus" NegotiateOptions.noneOpt "initiate"
      ["ntlm"] ["kerberos"]
      (by decide) (by decide) (by decide) (by decide)).2⟩

/-- C3: an `NTLMHash` credential strips both `ntlm` and `negotiate` from
both native capability sets (the probed sets being duplicate-free); and
when the protocol is `ntlm` with no override hint, the internal NTLM engine
is the resolved backend. -/
theorem ntlm_hash_rule
    (username : UserParam) (password : Option String) (hostname service : String)
    (cb : Option GssChannelBindings) (cr : ContextReq) (protocol : String)
    (options : NegotiateOptions) (usage : String) (sA gA : List String)
    (creds : List Credential)
    (hu : unify_credentials username password = .ok creds)
    (hh : ∃ d ∈ creds, d.isNTLMHash = true)
    (hnds : sA.Nodup) (hndg : gA.Nodup) :
    ("ntlm" ∉ sspiFiltered creds sA ∧ "negotiate" ∉ sspiFiltered creds sA ∧
     "ntlm" ∉ gssapiFiltered creds cr gA ∧
     "negotiate" ∉ gssapiFiltered creds cr gA) ∧
    (useSpecified options = false → lowerStr protocol = "ntlm" →
      _new_context username password hostname service cb cr protocol options
        usage sA gA
      = .ok ⟨.ntlmProxy, creds, hostname, service, cb, cr, usage, "ntlm",
          options⟩) := by
  have hany : creds.any Credential.isNTLMHash = true := by
    rcases hh with ⟨d, hd, hdn⟩
    exact List.any_eq_true.mpr ⟨d, hd, hdn⟩
  have hseq : sspiFiltered creds sA = stripNtlmAndNegotiate sA :=
    hashStep_of_hash hany
  have hgeq : gssapiFiltered creds cr gA
      = stripNtlmAndNegotiate (gssapiStep1 creds cr gA) :=
    hashStep_of_hash hany
  have hsstrip := stripNtlmAndNegotiate_not_mem hnds
  have hgstrip := @stripNtlmAndNegotiate_not_mem (gssapiStep1 creds cr gA)
    (@gssapiStep1_nodup creds cr gA hndg)
  have hmem : "ntlm" ∉ sspiFiltered creds sA ∧
      "negotiate" ∉ sspiFiltered creds sA ∧
      "ntlm" ∉ gssapiFiltered creds cr gA ∧
      "negotiate" ∉ gssapiFiltered creds cr gA := by
    rw [hseq, hgeq]
    exact ⟨hsstrip.1, hsstrip.2, hgstrip.1, hgstrip.2⟩
  refine ⟨hmem, fun hns hp => ?_⟩
  have hflags := useSpecified_false hns
  simp only [_new_context, hu]
  rw [hp]
  rw [if_neg (by decide : ¬(("ntlm" : String) = "credssp"))]
  rw [if_neg (by rintro (hc | ⟨-, hc⟩)
                 · rw [hflags.1] at hc; exact absurd hc (by decide)
                 · exact hmem.1 hc)]
  rw [if_neg (by rintro (hc | ⟨-, hk | hc⟩)
                 · rw [hflags.2.1] at hc; exact absurd hc (by decide)
                 · exact absurd hk (by decide)
                 · exact hmem.2.2.1 hc)]
  rw [if_neg (by rintro (hc | ⟨-, hc⟩)
                 · rw [hflags.2.2.1] at hc; exact absurd hc (by decide)
                 · exact absurd hc (by decide))]
  rw [if_pos (Or.inr ⟨hns, rfl⟩)]
  rw [if_neg (by decide : ¬(("ntlm" : String) = "negotiate"))]

/-- Witness for C3: an NT-hash credential on a host advertising everything
natively still resolves protocol `ntlm` to the internal NTLM engine. -/
theorem ntlm_hash_rule_witness :
    unify_credentials (.creds [.ntlmHash "u" none "h"]) none
      = .ok [.ntlmHash "u" none "h"] ∧
    (("ntlm" ∉ sspiFiltered [.ntlmHash "u" none "h"]
        ["ntlm", "kerberos", "negotiate", "credssp"] ∧
      "negotiate" ∉ sspiFiltered [.ntlmHash "u" none "h"]
        ["ntlm", "kerberos", "negotiate", "credssp"] ∧
      "ntlm" ∉ gssapiFiltered [.ntlmHash "u" none "h"] ContextReq.noneReq
        ["ntlm", "kerberos", "negotiate", "credssp"] ∧
      "negotiate" ∉ gssapiFiltered [.ntlmHash "u" none "h"] ContextReq.noneReq
        ["ntlm", "kerberos", "negotiate", "credssp"]) ∧
     (useSpecified NegotiateOptions.noneOpt = false →
      lowerStr "ntlm" = "ntlm" →
      _new_context (.creds [.ntlmHash "u" none "h"]) none "host" "http" none
        ContextReq.noneReq "ntlm" NegotiateOptions.noneOpt "initiate"
        ["ntlm", "kerberos", "negotiate", "credssp"]
        ["ntlm", "kerberos", "negotiate", "credssp"]
      = .ok ⟨.ntlmProxy, [.ntlmHash "u" none "h"], "host", "http", none,
          ContextReq.noneReq, "initiate", "ntlm", NegotiateOptions.noneOpt⟩)) :=
  ⟨by decide,
    ntlm_hash_rule (.creds [.ntlmHash "u" none "h"]) none "host" "http" none
      ContextReq.noneReq "ntlm" NegotiateOptions.noneOpt "initiate"
      ["ntlm", "kerberos", "negotiate", "credssp"]
      ["ntlm", "kerberos", "negotiate", "credssp"]
      [.ntlmHash "u" none "h"]
      (by decide) (by decide) (by decide) (by decide)⟩

/-- C5: with no override hint and a protocol other than credssp, SSPI is
chosen whenever its filtered set contains the protocol (SSPI is checked
first); otherwise GSSAPI is chosen when the protocol is `kerberos` — GSSAPI
is eligible for kerberos even without a `kerberos` entry in its filtered
set — or when its filtered set contains the protocol. -/
theorem autodetect_precedence
    (username : UserParam) (password : Option String) (hostname service : String)
    (cb : Option GssChannelBindings) (cr : ContextReq) (protocol : String)
    (options : NegotiateOptions) (usage : String) (sA gA : List String)
    (creds : List Credential)
    (hu : unify_credentials username password = .ok creds)
    (hns : useSpecified options = false)
    (hpc : ¬(lowerStr protocol = "credssp")) :
    (lowerStr protocol ∈ sspiFiltered creds sA →
      _new_context username password hostname service cb cr protocol options
        usage sA gA
      = .ok ⟨.sspiProxy, creds, hostname, service, cb, cr, usage,
          lowerStr protocol, options⟩) ∧
    (lowerStr protocol ∉ sspiFiltered creds sA →
      (lowerStr protocol = "kerberos" ∨
        lowerStr protocol ∈ gssapiFiltered creds cr gA) →
      _new_context username password hostname service cb cr protocol options
        usage sA gA
      = .ok ⟨.gssapiProxy, creds, hostname, service, cb, cr, usage,
          lowerStr protocol, options⟩) := by
  have hflags := useSpecified_false hns
  constructor
  · intro hmem
    simp only [_new_context, hu]
    rw [if_neg hpc, if_pos (Or.inr ⟨hns, hmem⟩)]
  · intro hnm hker
    simp only [_new_context, hu]
    rw [if_neg hpc]
    rw [if_neg (by rintro (hc | ⟨-, hc⟩)
                   · rw [hflags.1] at hc; exact absurd hc (by decide)
                   · exact hnm hc)]
    rw [if_pos (Or.inr ⟨hns, hker⟩)]

/-- Witness for C5: protocol `kerberos` with an empty GSSAPI filtered set
still resolves to the GSSAPI proxy (the kerberos eligibility exception). -/
theorem autodetect_precedence_witness :
    lowerStr "kerberos" ∉ sspiFiltered [Credential.credentialCache none] [] ∧
    (lowerStr "kerberos" = "kerberos" ∨
      lowerStr "kerberos" ∈ gssapiFiltered [Credential.credentialCache none]
        ContextReq.noneReq []) ∧
    _new_context .absent none "host" "http" none ContextReq.noneReq "kerberos"
      NegotiateOptions.noneOpt "initiate" [] []
    = .ok ⟨.gssapiProxy, [.credentialCache none], "host", "http", none,
        ContextReq.noneReq, "initiate", lowerStr "kerberos",
        NegotiateOptions.noneOpt⟩ :=
  ⟨by decide, by decide,
    (autodetect_precedence .absent none "host" "http" none ContextReq.noneReq
      "kerberos" NegotiateOptions.noneOpt "initiate" [] []
      [.credentialCache none]
      (by decide) (by decide) (by decide)).2 (by decide) (by decide)⟩

/-- C10: with several override hints set and a protocol other than credssp
the chain honours a fixed priority — use_sspi over use_gssapi over
use_negotiate over use_ntlm; and once any hint is set, auto-detection is
bypassed: a proxy can only be chosen if its own hint is set. -/
theorem override_priority_bypass
    (username : UserParam) (password : Option String) (hostname service : String)
    (cb : Option GssChannelBindings) (cr : ContextReq) (protocol : String)
    (options : NegotiateOptions) (usage : String) (sA gA : List String)
    (creds : List Credential)
    (hu : unify_credentials username password = .ok creds)
    (hpc : ¬(lowerStr protocol = "credssp")) :
    (options.use_sspi = true →
      _new_context username password hostname service cb cr protocol options
        usage sA gA
      = .ok ⟨.sspiProxy, creds, hostname, service, cb, cr, usage,
          lowerStr protocol, options⟩) ∧
    (options.use_sspi = false → options.use_gssapi = true →
      _new_context username password hostname service cb cr protocol options
        usage sA gA
      = .ok ⟨.gssapiProxy, creds, hostname, service, cb, cr, usage,
          lowerStr protocol, options⟩) ∧
    (options.use_sspi = false → options.use_gssapi = false →
     options.use_negotiate = true →
      _new_context username password hostname service cb cr protocol options
        usage sA gA
      = .ok ⟨.negotiateProxy, creds, hostname, service, cb, cr, usage,
          lowerStr protocol, options⟩) ∧
    (options.use_sspi = false → options.use_gssapi = false →
     options.use_negotiate = false → options.use_ntlm = true →
      _new_context username password hostname service cb cr protocol options
        usage sA gA
      = .ok ⟨.ntlmProxy, creds, hostname, service, cb, cr, usage,
          if lowerStr protocol = "negotiate" then "ntlm" else lowerStr protocol,
          options⟩) ∧
    (useSpecified options = true → ∀ c : ContextArgs,
      _new_context username password hostname service cb cr protocol options
        usage sA gA = .ok c →
      (c.proxy = .sspiProxy → options.use_sspi = true) ∧
      (c.proxy = .gssapiProxy → options.use_gssapi = true) ∧
      (c.proxy = .negotiateProxy → options.use_negotiate = true) ∧
      (c.proxy = .ntlmProxy → options.use_ntlm = true)) := by
  refine ⟨fun ha => ?_, fun hb1 hb2 => ?_, fun hc1 hc2 hc3 => ?_,
    fun hd1 hd2 hd3 hd4 => ?_, fun husp c h => ?_⟩
  · simp only [_new_context, hu]
    rw [if_neg hpc, if_pos (Or.inl ha)]
  · have husp : useSpecified options = true := by simp [useSpecified, hb2]
    simp only [_new_context, hu]
    rw [if_neg hpc]
    rw [if_neg (by rintro (hc | ⟨hc, -⟩)
                   · rw [hb1] at hc; exact absurd hc (by decide)
                   · exact absurd (husp.symm.trans hc) (by decide))]
    rw [if_pos (Or.inl hb2)]
  · have husp : useSpecified options = true := by simp [useSpecified, hc3]
    simp only [_new_context, hu]
    rw [if_neg hpc]
    rw [if_neg (by rintro (hc | ⟨hc, -⟩)
                   · rw [hc1] at hc; exact absurd hc (by decide)
                   · exact absurd (husp.symm.trans hc) (by decide))]
    rw [if_neg (by rintro (hc | ⟨hc, -⟩)
                   · rw [hc2] at hc; exact absurd hc (by decide)
                   · exact absurd (husp.symm.trans hc) (by decide))]
    rw [if_pos (Or.inl hc3)]
  · have husp : useSpecified options = true := by simp [useSpecified, hd4]
    simp only [_new_context, hu]
    rw [if_neg hpc]
    rw [if_neg (by rintro (hc | ⟨hc, -⟩)
                   · rw [hd1] at hc; exact absurd hc (by decide)
                   · exact absurd (husp.symm.trans hc) (by decide))]
    rw [if_neg (by rintro (hc | ⟨hc, -⟩)
                   · rw [hd2] at hc; exact absurd hc (by decide)
                   · exact absurd (husp.symm.trans hc) (by decide))]
    rw [if_neg (by rintro (hc | ⟨hc, -⟩)
                   · rw [hd3] at hc; exact absurd hc (by decide)
                   · exact absurd (husp.symm.trans hc) (by decide))]
    rw [if_pos (Or.inl hd4)]
  · have hi := new_context_inv _ _ _ _ _ _ _ _ _ _ _ _ _ hu h
    rcases hi.2.2.2.2.2.2.2 with h1 | h2 | h3 | h4 | h5
    · exact absurd h1.2.1 hpc
    · refine ⟨fun _ => ?_, fun hpx => ?_, fun hpx => ?_, fun hpx => ?_⟩
      · rcases h2.2.2 with hc | ⟨hc, -⟩
        · exact hc
        · exact absurd (husp.symm.trans hc) (by decide)
      · rw [h2.1] at hpx; exact absurd hpx (by decide)
      · rw [h2.1] at hpx; exact absurd hpx (by decide)
      · rw [h2.1] at hpx; exact absurd hpx (by decide)
    · refine ⟨fun hpx => ?_, fun _ => ?_, fun hpx => ?_, fun hpx => ?_⟩
      · rw [h3.1] at hpx; exact absurd hpx (by decide)
      · rcases h3.2.2 with hc | ⟨hc, -⟩
        · exact hc
        · exact absurd (husp.symm.trans hc) (by decide)
      · rw [h3.1] at hpx; exact absurd hpx (by decide)
      · rw [h3.1] at hpx; exact absurd hpx (by decide)
    · refine ⟨fun hpx => ?_, fun hpx => ?_, fun _ => ?_, fun hpx => ?_⟩
      · rw [h4.1] at hpx; exact absurd hpx (by decide)
      · rw [h4.1] at hpx; exact absurd hpx (by decide)
      · rcases h4.2.2 with hc | ⟨hc, -⟩
        · exact hc
        · exact absurd (husp.symm.trans hc) (by decide)
      · rw [h4.1] at hpx; exact absurd hpx (by decide)
    · refine ⟨fun hpx => ?_, fun hpx => ?_, fun hpx => ?_, fun _ => ?_⟩
      · rw [h5.1] at hpx; exact absurd hpx (by decide)
      · rw [h5.1] at hpx; exact absurd hpx (by decide)
      · rw [h5.1] at hpx; exact absurd hpx (by decide)
      · rcases h5.2.2 with hc | ⟨hc, -⟩
        · exact hc
        · exact absurd (husp.symm.trans hc) (by decide)

/-- Witness for C10: with `use_sspi` and `use_ntlm` both set on protocol
`ntlm`, SSPI wins. -/
theorem override_priority_bypass_witness :
    ¬(lowerStr "ntlm" = "credssp") ∧
    (NegotiateOptions.mk true false false true).use_sspi = true ∧
    _new_context .absent none "host" "http" none ContextReq.noneReq "ntlm"
      (NegotiateOptions.mk true false false true) "initiate" [] []
    = .ok ⟨.sspiProxy, [.credentialCache none], "host", "http", none,
        ContextReq.noneReq, "initiate", lowerStr "ntlm",
        NegotiateOptions.mk true false false true⟩ :=
  ⟨by decide, by decide,
    (override_priority_bypass .absent none "host" "http" none ContextReq.noneReq
      "ntlm" (NegotiateOptions.mk true false false true) "initiate" [] []
      [.credentialCache none]
      (by decide) (by decide)).1 (by decide)⟩

end Spnego
